import Mathlib

/-!
# Verification of the `iptables` caching controller (src/src/iptables.ts)

Shallow embedding of the rule-table controller. The controller itself
(class `IPTables`) is translated directly from `src/src/iptables.ts`.
The expiring key-value store (`MemoryCache`, imported by the source from
an external cache package whose code is not part of this repository) is
modelled from the spec's description of the expiring store.

External command execution (`exec`) is modelled by an oracle
`Cmd → Bool` saying whether a given command succeeds; every operation
returns, besides its result, the list of external commands it issued,
in issuance order. Asynchronous methods that can reject are embedded as
`Except Cmd α` (the error carries the failing command). Time is an
explicit `Nat` parameter (`now`), in seconds.
-/

/-- An external command issued to the rule-table tool, mirroring the three
command strings built in the source (`-F`, `-A … -s …`, `-A … -i …`). -/
inductive Cmd where
  | flushChain (iptables chain : String)
  | appendHost (iptables chain host jumpTarget : String)
  | appendIface (iptables chain iface jumpTarget : String)
deriving DecidableEq

/-- The exact shell command string the source builds for each `Cmd`. -/
def Cmd.render : Cmd → String
  | .flushChain bin chain => bin ++ " -F " ++ chain
  | .appendHost bin chain host t => bin ++ " -A " ++ chain ++ " -s " ++ host ++ " -j " ++ t
  | .appendIface bin chain iface t => bin ++ " -A " ++ chain ++ " -i " ++ iface ++ " -j " ++ t

/-- Success/failure outcome of executing each external command. -/
abbrev Oracle := Cmd → Bool

/-- Decidable equality of `Except` results, so that witnesses and
counterexamples can be checked by evaluation. -/
instance {ε α : Type} [DecidableEq ε] [DecidableEq α] : DecidableEq (Except ε α) := fun a b =>
  match a, b with
  | .ok x, .ok y => if h : x = y then .isTrue (by rw [h]) else .isFalse (by simp [h])
  | .error x, .error y => if h : x = y then .isTrue (by rw [h]) else .isFalse (by simp [h])
  | .ok _, .error _ => .isFalse (by simp)
  | .error _, .ok _ => .isFalse (by simp)

/-- Modelled from the spec: one entry of the expiring key-value store —
key, value (jump target), and the absolute expiry time
(`none` = never expires). -/
structure CacheEntry where
  key : String
  value : String
  expiresAt : Option Nat
deriving DecidableEq

/-- Modelled from the spec: an entry is alive at time `now` when it has no
expiry timestamp or its expiry timestamp has not yet passed (read-time
clock comparison is the authoritative expiry check). -/
def CacheEntry.alive (e : CacheEntry) (now : Nat) : Bool :=
  match e.expiresAt with
  | none => true
  | some t => now < t

/-- Modelled from the spec: the expiring key-value store (`MemoryCache` of
the external cache package). Entries are kept in insertion order;
`stdTTL = 0` means entries never expire; `checkperiod` is the sweep
period. -/
structure MemoryCache where
  stdTTL : Nat
  checkperiod : Nat
  entries : List CacheEntry
deriving DecidableEq

/-- Modelled from the spec: `includes`/`has` is true iff the key is present
and not expired. -/
def MemoryCache.includes (c : MemoryCache) (key : String) (now : Nat) : Bool :=
  c.entries.any fun e => e.key == key && e.alive now

/-- Modelled from the spec: `set` on a list of entries — re-setting a
present key overwrites its value and resets its expiry clock (keeping its
position); a fresh key is appended. -/
def setEntries (es : List CacheEntry) (key value : String) (ex : Option Nat) :
    List CacheEntry :=
  if es.any (fun e => e.key == key) then
    es.map fun e => if e.key == key then { key := e.key, value := value, expiresAt := ex } else e
  else
    es ++ [{ key := key, value := value, expiresAt := ex }]

/-- The expiry timestamp `set` assigns at time `now`: never for TTL 0,
`now + stdTTL` otherwise. -/
def MemoryCache.setExpiry (c : MemoryCache) (now : Nat) : Option Nat :=
  if c.stdTTL == 0 then none else some (now + c.stdTTL)

/-- Modelled from the spec: `set(key, value)` inserts or overwrites and
resets expiry to `now + TTL` (no expiry when TTL = 0). -/
def MemoryCache.set (c : MemoryCache) (key value : String) (now : Nat) : MemoryCache :=
  { c with entries := setEntries c.entries key value (c.setExpiry now) }

/-- Modelled from the spec: `del(key)` removes the entry if present;
idempotent. -/
def MemoryCache.del (c : MemoryCache) (key : String) : MemoryCache :=
  { c with entries := c.entries.filter fun e => !(e.key == key) }

/-- Modelled from the spec: `list()` is a snapshot of (key, value) pairs in
insertion order, excluding expired-but-not-yet-swept entries. -/
def MemoryCache.list (c : MemoryCache) (now : Nat) : List (String × String) :=
  (c.entries.filter fun e => e.alive now).map fun e => (e.key, e.value)

/-- Modelled from the spec: `clear()` removes all entries. -/
def MemoryCache.clear (c : MemoryCache) : MemoryCache :=
  { c with entries := [] }

/-- Modelled from the spec: the background sweep at time `now` removes
every entry whose expiry has passed and emits an `expired` notification
carrying each removed key (removal happens, then the notification is
emitted). Returns the swept store and the emitted keys. -/
def MemoryCache.sweep (c : MemoryCache) (now : Nat) : MemoryCache × List String :=
  ({ c with entries := c.entries.filter fun e => e.alive now },
   (c.entries.filter fun e => !(e.alive now)).map fun e => e.key)

/-- The first sweep time at or after `x`, for a sweep running at every
multiple of `period`. -/
def firstSweepAt (period x : Nat) : Nat :=
  period * ((x + period - 1) / period)

/-- Constructor options (`Options` of the source): `chain` is required,
the rest optional. `family` is a plain number at runtime (the source
checks it against 4 and 6). -/
structure Options where
  chain : String
  stdTTL : Option Nat
  iptables : Option String
  family : Option Nat
deriving DecidableEq

/-- The options after the constructor has filled the defaults. -/
structure Config where
  chain : String
  stdTTL : Nat
  iptables : String
  family : Nat
deriving DecidableEq

/-- The controller state: resolved options plus the two stores
(`hostStorage` with finite TTL, `ifaceStorage` with TTL 0 = never). -/
structure IPTables where
  options : Config
  hostStorage : MemoryCache
  ifaceStorage : MemoryCache
deriving DecidableEq

/-- The constructor: fills `stdTTL ??= 300` and `family ??= 4`, picks the
default binary per family (`which.sync` modelled by `locate`, the absolute
fallback as in the source), throws on an unknown family, resolves the
path (`resolvePath` models node's `path.resolve`), and creates the two
stores (`checkperiod = ceil(stdTTL * 0.1)` for hosts, TTL 0 for
interfaces). -/
def IPTables.construct (opts : Options) (locate : String → Option String)
    (resolvePath : String → String) : Except String IPTables :=
  let stdTTL := opts.stdTTL.getD 300
  let family := opts.family.getD 4
  if family == 4 then
    let bin := resolvePath (opts.iptables.getD ((locate "iptables").getD "/usr/sbin/iptables"))
    .ok { options := { chain := opts.chain, stdTTL := stdTTL, iptables := bin, family := family },
          hostStorage := { stdTTL := stdTTL, checkperiod := (stdTTL + 9) / 10, entries := [] },
          ifaceStorage := { stdTTL := 0, checkperiod := 0, entries := [] } }
  else if family == 6 then
    let bin := resolvePath (opts.iptables.getD ((locate "ip6tables").getD "/usr/sbin/ip6tables"))
    .ok { options := { chain := opts.chain, stdTTL := stdTTL, iptables := bin, family := family },
          hostStorage := { stdTTL := stdTTL, checkperiod := (stdTTL + 9) / 10, entries := [] },
          ifaceStorage := { stdTTL := 0, checkperiod := 0, entries := [] } }
  else
    .error "Unknown address family specified"

/-- The flush command `flush()` builds:
`${options.iptables} -F ${options.chain}`. -/
def IPTables.flushCmd (s : IPTables) : Cmd :=
  Cmd.flushChain s.options.iptables s.options.chain

/-- `flush(nothrow)`: issues the single flush command; rejects with the
error iff the command fails and `nothrow` is false. -/
def IPTables.flush (s : IPTables) (o : Oracle) (nothrow : Bool) :
    Except Cmd Unit × List Cmd :=
  let cmd := s.flushCmd
  if !o cmd && !nothrow then (.error cmd, [cmd]) else (.ok (), [cmd])

/-- `_add(host, jumpTarget, nothrow)`: issues one append-host command;
rejects iff it fails and `nothrow` is false. -/
def IPTables._add (s : IPTables) (o : Oracle) (host jumpTarget : String)
    (nothrow : Bool) : Except Cmd Unit × List Cmd :=
  let cmd := Cmd.appendHost s.options.iptables s.options.chain host jumpTarget
  if !o cmd && !nothrow then (.error cmd, [cmd]) else (.ok (), [cmd])

/-- `_addInterface(iface, jumpTarget, nothrow)`: issues one
append-interface command; rejects iff it fails and `nothrow` is false. -/
def IPTables._addInterface (s : IPTables) (o : Oracle) (iface jumpTarget : String)
    (nothrow : Bool) : Except Cmd Unit × List Cmd :=
  let cmd := Cmd.appendIface s.options.iptables s.options.chain iface jumpTarget
  if !o cmd && !nothrow then (.error cmd, [cmd]) else (.ok (), [cmd])

/-- `add(host, jumpTarget)`: when the host is not in the store, first run
`_add` (propagating its error, in which case the store is untouched);
then (or when already stored) `set` the store entry. Returns the new
state, the result (`true` on success), and the issued commands. -/
def IPTables.add (s : IPTables) (o : Oracle) (now : Nat) (host jumpTarget : String) :
    IPTables × Except Cmd Bool × List Cmd :=
  if s.hostStorage.includes host now then
    ({ s with hostStorage := s.hostStorage.set host jumpTarget now }, .ok true, [])
  else
    match s._add o host jumpTarget false with
    | (.ok _, tr) =>
        ({ s with hostStorage := s.hostStorage.set host jumpTarget now }, .ok true, tr)
    | (.error e, tr) => (s, .error e, tr)

/-- `addInterface(iface, jumpTarget)`: same as `add` against the
interface store. -/
def IPTables.addInterface (s : IPTables) (o : Oracle) (now : Nat)
    (iface jumpTarget : String) : IPTables × Except Cmd Bool × List Cmd :=
  if s.ifaceStorage.includes iface now then
    ({ s with ifaceStorage := s.ifaceStorage.set iface jumpTarget now }, .ok true, [])
  else
    match s._addInterface o iface jumpTarget false with
    | (.ok _, tr) =>
        ({ s with ifaceStorage := s.ifaceStorage.set iface jumpTarget now }, .ok true, tr)
    | (.error e, tr) => (s, .error e, tr)

/-- The append commands `rebuild()` would issue for the current host
store enumeration. -/
def IPTables.hostAppendCmds (s : IPTables) (now : Nat) : List Cmd :=
  (s.hostStorage.list now).map fun p =>
    Cmd.appendHost s.options.iptables s.options.chain p.1 p.2

/-- The append commands `rebuild()` would issue for the current interface
store enumeration. -/
def IPTables.ifaceAppendCmds (s : IPTables) (now : Nat) : List Cmd :=
  (s.ifaceStorage.list now).map fun p =>
    Cmd.appendIface s.options.iptables s.options.chain p.1 p.2

/-- All append commands of a rebuild: host batch first, then interface
batch, each in its store's enumeration order. -/
def IPTables.rebuildAppendCmds (s : IPTables) (now : Nat) : List Cmd :=
  s.hostAppendCmds now ++ s.ifaceAppendCmds now

/-- `rebuild()`: flush (catching a flush failure by returning `false`);
then one `_add` per host-store entry and one `_addInterface` per
interface-store entry (all commands are issued, the promises being
created before `Promise.all`); the first append rejection propagates. -/
def IPTables.rebuild (s : IPTables) (o : Oracle) (now : Nat) :
    Except Cmd Bool × List Cmd :=
  match s.flush o false with
  | (.error _, tr) => (.ok false, tr)
  | (.ok _, tr) =>
    let hostRuns := (s.hostStorage.list now).map fun p => s._add o p.1 p.2 false
    let ifaceRuns := (s.ifaceStorage.list now).map fun p => s._addInterface o p.1 p.2 false
    let runs := hostRuns ++ ifaceRuns
    let trace := tr ++ (runs.map fun r => r.2).flatten
    match runs.findSome? (fun r => match r.1 with | .error e => some e | .ok _ => none) with
    | some e => (.error e, trace)
    | none => (.ok true, trace)

/-- `delete(host)`: `false` and no commands when the host is not stored;
otherwise remove it from the store (unconditionally) and return the
result of `rebuild()`. -/
def IPTables.delete (s : IPTables) (o : Oracle) (now : Nat) (host : String) :
    IPTables × Except Cmd Bool × List Cmd :=
  if !s.hostStorage.includes host now then (s, .ok false, [])
  else
    let s' := { s with hostStorage := s.hostStorage.del host }
    let r := s'.rebuild o now
    (s', r.1, r.2)

/-- `deleteInterface(iface)`: symmetric to `delete`. -/
def IPTables.deleteInterface (s : IPTables) (o : Oracle) (now : Nat) (iface : String) :
    IPTables × Except Cmd Bool × List Cmd :=
  if !s.ifaceStorage.includes iface now then (s, .ok false, [])
  else
    let s' := { s with ifaceStorage := s.ifaceStorage.del iface }
    let r := s'.rebuild o now
    (s', r.1, r.2)

/-- `flushAll()`: flush (propagating failure, in which case the store is
untouched), then clear the host store only. -/
def IPTables.flushAll (s : IPTables) (o : Oracle) :
    IPTables × Except Cmd Unit × List Cmd :=
  match s.flush o false with
  | (.error e, tr) => (s, .error e, tr)
  | (.ok _, tr) => ({ s with hostStorage := s.hostStorage.clear }, .ok (), tr)

/-- `keepAlive(host)`: `await this.add(host)` — `add` with the default
jump target `ACCEPT`, result discarded. -/
def IPTables.keepAlive (s : IPTables) (o : Oracle) (now : Nat) (host : String) :
    IPTables × Except Cmd Unit × List Cmd :=
  let r := s.add o now host "ACCEPT"
  (r.1, r.2.1.map fun _ => (), r.2.2)

/-- The constructor's host-store expiry handler,
`hostStorage.on('expired', async key => await this.delete(key))`, run for
each expired key in order. Returns the final state and all issued
commands. -/
def IPTables.handleExpired (s : IPTables) (o : Oracle) (now : Nat) :
    List String → IPTables × List Cmd
  | [] => (s, [])
  | k :: rest =>
    let r := s.delete o now k
    let r' := IPTables.handleExpired r.1 o now rest
    (r'.1, r.2.2 ++ r'.2)

/-- One firing of the host store's sweep timer at time `now`, followed by
the controller's expiry handler for each emitted key: returns the final
state, the keys the store emitted `expired` for, and all issued
commands. -/
def IPTables.sweepHostStorage (s : IPTables) (o : Oracle) (now : Nat) :
    IPTables × List String × List Cmd :=
  let sw := s.hostStorage.sweep now
  let s' := { s with hostStorage := sw.1 }
  let h := IPTables.handleExpired s' o now sw.2
  (h.1, sw.2, h.2)

/-! ## Concrete states used by witnesses -/

/-- An oracle under which every external command succeeds. -/
def oracleAll : Oracle := fun _ => true

/-- An oracle under which every external command fails. -/
def oracleNone : Oracle := fun _ => false

/-- A concrete resolved configuration. -/
def wOptions : Config :=
  { chain := "INPUT", stdTTL := 300, iptables := "/usr/sbin/iptables", family := 4 }

/-- A concrete host store holding one entry. -/
def wHostCache : MemoryCache :=
  { stdTTL := 300, checkperiod := 30, entries := [⟨"1.2.3.4", "DROP", some 300⟩] }

/-- A concrete interface store holding one entry. -/
def wIfaceCache : MemoryCache :=
  { stdTTL := 0, checkperiod := 0, entries := [⟨"eth0", "ACCEPT", none⟩] }

/-- A concrete controller state with one host and one interface entry. -/
def wState : IPTables :=
  { options := wOptions, hostStorage := wHostCache, ifaceStorage := wIfaceCache }

/-! ## C7, C8, C6, C10, C9 -/

/-- C7: whenever the flush command fails during `rebuild()`, the failure
is caught locally and `rebuild()` returns `false` instead of propagating
the error, and no append command is issued after the failed flush (the
trace is just the one flush command). -/
theorem rebuild_flush_failure (s : IPTables) (o : Oracle) (now : Nat)
    (hf : o s.flushCmd = false) :
    s.rebuild o now = (.ok false, [s.flushCmd]) := by
  simp [IPTables.rebuild, IPTables.flush, hf]

theorem rebuild_flush_failure_witness :
    wState.rebuild oracleNone 0 = (.ok false, [wState.flushCmd]) :=
  rebuild_flush_failure wState oracleNone 0 (by decide)

/-- C8: `flush(nothrow)` issues exactly one flush-chain command; when the
external command fails, `flush` rejects with the failing command when
`nothrow` is false and completes without error when `nothrow` is true. -/
theorem flush_single_cmd (s : IPTables) (o : Oracle) (nt : Bool) :
    (s.flush o nt).2 = [s.flushCmd] ∧
    (o s.flushCmd = false →
      (s.flush o false).1 = .error s.flushCmd ∧ (s.flush o true).1 = .ok ()) := by
  constructor
  · simp only [IPTables.flush]
    split <;> rfl
  · intro hf
    simp [IPTables.flush, hf]

theorem flush_single_cmd_witness :
    (wState.flush oracleNone false).2 = [wState.flushCmd] ∧
    (wState.flush oracleNone false).1 = .error wState.flushCmd ∧
    (wState.flush oracleNone true).1 = .ok () :=
  ⟨(flush_single_cmd wState oracleNone false).1,
   ((flush_single_cmd wState oracleNone false).2 (by decide)).1,
   ((flush_single_cmd wState oracleNone false).2 (by decide)).2⟩

/-- C6: a successful `flushAll()` issues exactly one flush command,
removes every entry from the host store, and leaves the interface store
unchanged. -/
theorem flushAll_success (s : IPTables) (o : Oracle)
    (hf : o s.flushCmd = true) :
    (s.flushAll o).1.hostStorage.entries = [] ∧
    (s.flushAll o).1.ifaceStorage = s.ifaceStorage ∧
    (s.flushAll o).2.1 = .ok () ∧
    (s.flushAll o).2.2 = [s.flushCmd] := by
  simp [IPTables.flushAll, IPTables.flush, hf, MemoryCache.clear]

theorem flushAll_success_witness :
    (wState.flushAll oracleAll).1.hostStorage.entries = [] ∧
    (wState.flushAll oracleAll).1.ifaceStorage = wState.ifaceStorage ∧
    (wState.flushAll oracleAll).2.1 = .ok () ∧
    (wState.flushAll oracleAll).2.2 = [wState.flushCmd] :=
  flushAll_success wState oracleAll (by decide)

/-- C10: for a host not present in the host store, when the incremental
append command fails, `add` propagates the error and the whole state is
left unchanged (the host is not inserted and no entry is modified). -/
theorem add_error_atomic (s : IPTables) (o : Oracle) (now : Nat)
    (host jumpTarget : String)
    (habs : s.hostStorage.includes host now = false)
    (hc : o (Cmd.appendHost s.options.iptables s.options.chain host jumpTarget) = false) :
    s.add o now host jumpTarget =
      (s, .error (Cmd.appendHost s.options.iptables s.options.chain host jumpTarget),
       [Cmd.appendHost s.options.iptables s.options.chain host jumpTarget]) := by
  simp [IPTables.add, habs, IPTables._add, hc]

theorem add_error_atomic_witness :
    wState.add oracleNone 0 "9.9.9.9" "DROP" =
      (wState,
       .error (Cmd.appendHost wState.options.iptables wState.options.chain "9.9.9.9" "DROP"),
       [Cmd.appendHost wState.options.iptables wState.options.chain "9.9.9.9" "DROP"]) :=
  add_error_atomic wState oracleNone 0 "9.9.9.9" "DROP" (by decide) (by decide)

/-- C9: constructing the controller with an address family other than 4
or 6 fails with the configuration error; when no family is given it
defaults to 4 and construction succeeds. -/
theorem construct_family_check (opts : Options) (locate : String → Option String)
    (resolvePath : String → String) :
    (∀ f, opts.family = some f → f ≠ 4 → f ≠ 6 →
      IPTables.construct opts locate resolvePath =
        .error "Unknown address family specified") ∧
    (opts.family = none →
      ∃ s, IPTables.construct opts locate resolvePath = .ok s ∧
        s.options.family = 4) := by
  constructor
  · intro f hf h4 h6
    simp [IPTables.construct, hf, h4, h6]
  · intro hnone
    simp only [IPTables.construct, hnone, Option.getD_none, Option.getD_some]
    exact ⟨_, rfl, rfl⟩

theorem construct_family_check_witness :
    IPTables.construct ⟨"INPUT", none, none, some 5⟩ (fun _ => none) id =
      .error "Unknown address family specified" :=
  (construct_family_check ⟨"INPUT", none, none, some 5⟩ (fun _ => none) id).1
    5 rfl (by decide) (by decide)

/-! ## Rebuild machinery (C1, and shared with C3) -/

/-- `_add` always issues exactly its one append command, whether or not
it succeeds. -/
lemma _add_trace (s : IPTables) (o : Oracle) (h t : String) (nt : Bool) :
    (s._add o h t nt).2 = [Cmd.appendHost s.options.iptables s.options.chain h t] := by
  simp only [IPTables._add]
  split <;> rfl

/-- `_addInterface` always issues exactly its one append command. -/
lemma _addInterface_trace (s : IPTables) (o : Oracle) (i t : String) (nt : Bool) :
    (s._addInterface o i t nt).2 = [Cmd.appendIface s.options.iptables s.options.chain i t] := by
  simp only [IPTables._addInterface]
  split <;> rfl

/-- Flattening a list of singletons recovers the underlying map. -/
lemma flatten_map_singleton {α β : Type} (f : α → β) (l : List α) :
    (l.map fun a => [f a]).flatten = l.map f := by
  induction l with
  | nil => rfl
  | cons a l ih => simp [ih]

/-- The first-error scan of the rebuild returns `none` exactly when every
append promise resolved. -/
lemma findSome_error_eq_none_iff (runs : List (Except Cmd Unit × List Cmd)) :
    runs.findSome? (fun r => match r.1 with | .error e => some e | .ok _ => none) = none ↔
      ∀ r ∈ runs, r.1 = .ok () := by
  induction runs with
  | nil => simp
  | cons r rs ih =>
    rw [List.findSome?_cons]
    match hr : r.1 with
    | .ok u =>
      cases u
      simp [hr, ih]
    | .error e =>
      simp [hr]

/-- C1: a successful `rebuild()` — flush succeeds and every append
succeeds — issues exactly one flush command followed by one append per
host-store entry in the host store's enumeration order and then one
append per interface-store entry in the interface store's enumeration
order, and returns `true`. -/
theorem rebuild_success (s : IPTables) (o : Oracle) (now : Nat)
    (hf : o s.flushCmd = true)
    (ha : ∀ c ∈ s.rebuildAppendCmds now, o c = true) :
    s.rebuild o now = (.ok true, s.flushCmd :: s.rebuildAppendCmds now) := by
  have hhost : ∀ p ∈ s.hostStorage.list now,
      s._add o p.1 p.2 false =
        (Except.ok (), [Cmd.appendHost s.options.iptables s.options.chain p.1 p.2]) := by
    intro p hp
    have hc : o (Cmd.appendHost s.options.iptables s.options.chain p.1 p.2) = true := by
      apply ha
      simp only [IPTables.rebuildAppendCmds, IPTables.hostAppendCmds, IPTables.ifaceAppendCmds,
        List.mem_append, List.mem_map]
      exact Or.inl ⟨p, hp, rfl⟩
    simp [IPTables._add, hc]
  have hiface : ∀ p ∈ s.ifaceStorage.list now,
      s._addInterface o p.1 p.2 false =
        (Except.ok (), [Cmd.appendIface s.options.iptables s.options.chain p.1 p.2]) := by
    intro p hp
    have hc : o (Cmd.appendIface s.options.iptables s.options.chain p.1 p.2) = true := by
      apply ha
      simp only [IPTables.rebuildAppendCmds, IPTables.hostAppendCmds, IPTables.ifaceAppendCmds,
        List.mem_append, List.mem_map]
      exact Or.inr ⟨p, hp, rfl⟩
    simp [IPTables._addInterface, hc]
  have hnone : ((List.map (fun p => ((Except.ok () : Except Cmd Unit),
        [Cmd.appendHost s.options.iptables s.options.chain p.1 p.2])) (s.hostStorage.list now) ++
      List.map (fun p => ((Except.ok () : Except Cmd Unit),
        [Cmd.appendIface s.options.iptables s.options.chain p.1 p.2]))
        (s.ifaceStorage.list now)).findSome?
        (fun r => match r.1 with | .error e => some e | .ok _ => none)) = none := by
    rw [findSome_error_eq_none_iff]
    intro r hr
    rcases List.mem_append.1 hr with h | h <;> rcases List.mem_map.1 h with ⟨p, hp, rfl⟩ <;> rfl
  simp only [IPTables.rebuild, IPTables.flush, hf]
  rw [List.map_congr_left hhost, List.map_congr_left hiface]
  rw [hnone]
  simp [List.map_append, List.map_map, Function.comp_def, flatten_map_singleton,
    IPTables.rebuildAppendCmds, IPTables.hostAppendCmds, IPTables.ifaceAppendCmds]

theorem rebuild_success_witness :
    wState.rebuild oracleAll 0 = (.ok true, wState.flushCmd :: wState.rebuildAppendCmds 0) :=
  rebuild_success wState oracleAll 0 (by decide) (by decide)

/-- A successful flush resolves and issues its one command. -/
lemma flush_ok (s : IPTables) (o : Oracle) (hf : o s.flushCmd = true) :
    s.flush o false = (.ok (), [s.flushCmd]) := by
  simp [IPTables.flush, hf]

/-- A failed flush (without `nothrow`) rejects and issues its one
command. -/
lemma flush_fail (s : IPTables) (o : Oracle) (hf : o s.flushCmd = false) :
    s.flush o false = (.error s.flushCmd, [s.flushCmd]) := by
  simp [IPTables.flush, hf]

/-- Helper: a failed flush makes `rebuild` return `false` with only the
flush command issued. -/
lemma rebuild_of_flush_fail (s : IPTables) (o : Oracle) (now : Nat)
    (hf : o s.flushCmd = false) :
    s.rebuild o now = (.ok false, [s.flushCmd]) := by
  simp [IPTables.rebuild, IPTables.flush, hf]

/-- The append promises `rebuild()` creates, host batch then interface
batch (the internal `promises` list of the source). -/
def IPTables.rebuildRuns (s : IPTables) (o : Oracle) (now : Nat) :
    List (Except Cmd Unit × List Cmd) :=
  (s.hostStorage.list now).map (fun p => s._add o p.1 p.2 false) ++
  (s.ifaceStorage.list now).map (fun p => s._addInterface o p.1 p.2 false)

/-- After a successful flush, `rebuild` is determined by its append
promises: the first append error propagates, otherwise it returns `true`;
either way the trace is the flush followed by every append command. -/
lemma rebuild_char (s : IPTables) (o : Oracle) (now : Nat)
    (hf : o s.flushCmd = true) :
    s.rebuild o now =
      (match (s.rebuildRuns o now).findSome?
          (fun r => match r.1 with | .error e => some e | .ok _ => none) with
       | some e => Except.error e
       | none => .ok true,
       s.flushCmd :: ((s.rebuildRuns o now).map fun r => r.2).flatten) := by
  simp only [IPTables.rebuild, IPTables.rebuildRuns]
  rw [flush_ok s o hf]
  simp only [List.map_append, List.flatten_append, List.map_map, List.singleton_append]
  split <;> rfl

/-- A host append promise resolves exactly when its command succeeds. -/
lemma _add_fst_ok (s : IPTables) (o : Oracle) (h t : String) :
    (s._add o h t false).1 = .ok () ↔
      o (Cmd.appendHost s.options.iptables s.options.chain h t) = true := by
  simp only [IPTables._add]
  cases hc : o (Cmd.appendHost s.options.iptables s.options.chain h t) <;> simp [hc]

/-- An interface append promise resolves exactly when its command
succeeds. -/
lemma _addInterface_fst_ok (s : IPTables) (o : Oracle) (i t : String) :
    (s._addInterface o i t false).1 = .ok () ↔
      o (Cmd.appendIface s.options.iptables s.options.chain i t) = true := by
  simp only [IPTables._addInterface]
  cases hc : o (Cmd.appendIface s.options.iptables s.options.chain i t) <;> simp [hc]

/-- The commands issued by the append promises are exactly the rebuild
append commands, in order, whatever their outcomes. -/
lemma map_snd_map_flatten {α : Type} (g : α → Except Cmd Unit × List Cmd) (cs : α → Cmd)
    (h : ∀ a, (g a).2 = [cs a]) (l : List α) :
    ((l.map g).map fun r => r.2).flatten = l.map cs := by
  induction l with
  | nil => rfl
  | cons a l ih => simp only [List.map_cons, List.flatten_cons, h a, ih, List.singleton_append]

lemma rebuildRuns_trace (s : IPTables) (o : Oracle) (now : Nat) :
    ((s.rebuildRuns o now).map fun r => r.2).flatten = s.rebuildAppendCmds now := by
  simp only [IPTables.rebuildRuns, List.map_append, List.flatten_append]
  rw [map_snd_map_flatten (fun p => s._add o p.1 p.2 false)
        (fun p => Cmd.appendHost s.options.iptables s.options.chain p.1 p.2)
        (fun p => _add_trace s o p.1 p.2 false) (s.hostStorage.list now),
      map_snd_map_flatten (fun p => s._addInterface o p.1 p.2 false)
        (fun p => Cmd.appendIface s.options.iptables s.options.chain p.1 p.2)
        (fun p => _addInterface_trace s o p.1 p.2 false) (s.ifaceStorage.list now)]
  rfl

/-- Every append promise resolves exactly when every rebuild append
command succeeds. -/
lemma rebuildRuns_all_ok_iff (s : IPTables) (o : Oracle) (now : Nat) :
    (∀ r ∈ s.rebuildRuns o now, r.1 = .ok ()) ↔
      (∀ c ∈ s.rebuildAppendCmds now, o c = true) := by
  constructor
  · intro h c hc
    simp only [IPTables.rebuildAppendCmds, IPTables.hostAppendCmds, IPTables.ifaceAppendCmds,
      List.mem_append, List.mem_map] at hc
    rcases hc with ⟨p, hp, rfl⟩ | ⟨p, hp, rfl⟩
    · refine (_add_fst_ok s o p.1 p.2).1 (h _ ?_)
      simp only [IPTables.rebuildRuns, List.mem_append, List.mem_map]
      exact Or.inl ⟨p, hp, rfl⟩
    · refine (_addInterface_fst_ok s o p.1 p.2).1 (h _ ?_)
      simp only [IPTables.rebuildRuns, List.mem_append, List.mem_map]
      exact Or.inr ⟨p, hp, rfl⟩
  · intro h r hr
    simp only [IPTables.rebuildRuns, List.mem_append, List.mem_map] at hr
    rcases hr with ⟨p, hp, rfl⟩ | ⟨p, hp, rfl⟩
    · refine (_add_fst_ok s o p.1 p.2).2 (h _ ?_)
      simp only [IPTables.rebuildAppendCmds, IPTables.hostAppendCmds, IPTables.ifaceAppendCmds,
        List.mem_append, List.mem_map]
      exact Or.inl ⟨p, hp, rfl⟩
    · refine (_addInterface_fst_ok s o p.1 p.2).2 (h _ ?_)
      simp only [IPTables.rebuildAppendCmds, IPTables.hostAppendCmds, IPTables.ifaceAppendCmds,
        List.mem_append, List.mem_map]
      exact Or.inr ⟨p, hp, rfl⟩

/-- `rebuild` resolves to `true` exactly when the flush command and every
rebuild append command succeed. -/
lemma rebuild_fst_ok_true_iff (s : IPTables) (o : Oracle) (now : Nat) :
    (s.rebuild o now).1 = .ok true ↔
      (o s.flushCmd = true ∧ ∀ c ∈ s.rebuildAppendCmds now, o c = true) := by
  cases hf : o s.flushCmd with
  | false =>
    rw [rebuild_of_flush_fail s o now hf]
    simp
  | true =>
    rw [rebuild_char s o now hf]
    have hiff := (findSome_error_eq_none_iff (s.rebuildRuns o now)).trans
      (rebuildRuns_all_ok_iff s o now)
    cases hfind : (s.rebuildRuns o now).findSome?
        (fun r => match r.1 with | .error e => some e | .ok _ => none) with
    | none =>
      exact iff_of_true rfl ⟨rfl, hiff.1 hfind⟩
    | some e =>
      refine iff_of_false (fun h => by simp at h) (fun hab => ?_)
      have hn := hiff.2 hab.2
      rw [hfind] at hn
      exact Option.noConfusion hn

/-! ## C3: delete -/

/-- After `del`, the key is absent at every time. -/
lemma includes_del (c : MemoryCache) (k : String) (now : Nat) :
    (c.del k).includes k now = false := by
  simp only [MemoryCache.del, MemoryCache.includes]
  rw [List.any_eq_false]
  intro e he
  rw [List.mem_filter] at he
  cases hk : e.key == k with
  | false => simp [hk]
  | true => simp [hk] at he

/-- C3 (amended): `delete(h)` on an unknown host returns `false` and
issues no commands; on a known host it removes `h` from the host store
unconditionally (so the store no longer contains `h`, whatever the
oracle does), and resolves to `true` exactly when the flush command and
every re-issued append command succeed (an append failure propagates as
an error rather than a `false` return). -/
theorem delete_spec (s : IPTables) (o : Oracle) (now : Nat) (host : String) :
    (s.hostStorage.includes host now = false →
      s.delete o now host = (s, .ok false, [])) ∧
    (s.hostStorage.includes host now = true →
      (s.delete o now host).1 = { s with hostStorage := s.hostStorage.del host } ∧
      (s.delete o now host).1.hostStorage.includes host now = false ∧
      ((s.delete o now host).2.1 = .ok true ↔
        (o s.flushCmd = true ∧
          ∀ c ∈ IPTables.rebuildAppendCmds
              { s with hostStorage := s.hostStorage.del host } now, o c = true))) := by
  constructor
  · intro h
    simp [IPTables.delete, h]
  · intro h
    have hd : s.delete o now host =
        ({ s with hostStorage := s.hostStorage.del host },
         (IPTables.rebuild { s with hostStorage := s.hostStorage.del host } o now).1,
         (IPTables.rebuild { s with hostStorage := s.hostStorage.del host } o now).2) := by
      simp [IPTables.delete, h]
    rw [hd]
    exact ⟨rfl, includes_del s.hostStorage host now,
      rebuild_fst_ok_true_iff { s with hostStorage := s.hostStorage.del host } o now⟩

theorem delete_spec_witness :
    (wState.delete oracleAll 0 "1.2.3.4").1 =
      { wState with hostStorage := wState.hostStorage.del "1.2.3.4" } ∧
    (wState.delete oracleAll 0 "1.2.3.4").1.hostStorage.includes "1.2.3.4" 0 = false ∧
    ((wState.delete oracleAll 0 "1.2.3.4").2.1 = .ok true ↔
      (oracleAll wState.flushCmd = true ∧
        ∀ c ∈ IPTables.rebuildAppendCmds
            { wState with hostStorage := wState.hostStorage.del "1.2.3.4" } 0,
          oracleAll c = true)) :=
  (delete_spec wState oracleAll 0 "1.2.3.4").2 (by decide)

/-- Oracle for the C3 counterexample: every command succeeds except the
re-append for host `2.2.2.2`. -/
def cexOracle3 : Oracle := fun c =>
  match c with
  | .appendHost _ _ "2.2.2.2" _ => false
  | _ => true

/-- Host store for the C3 counterexample. -/
def cexHostCache3 : MemoryCache :=
  { stdTTL := 300, checkperiod := 30,
    entries := [⟨"1.1.1.1", "ACCEPT", none⟩, ⟨"2.2.2.2", "ACCEPT", none⟩] }

/-- State for the C3 counterexample: two known hosts, no interfaces. -/
def cexState3 : IPTables :=
  { options := wOptions, hostStorage := cexHostCache3,
    ifaceStorage := { stdTTL := 0, checkperiod := 0, entries := [] } }

/-- C3 counterexample: deleting the known host `1.1.1.1` while the flush
command succeeds does not return `true` — the failing re-append for the
remaining host `2.2.2.2` propagates as an error. This refutes "returns
true if and only if the flush step of the triggered rebuild succeeds". -/
theorem delete_true_iff_flush_cex :
    cexOracle3 cexState3.flushCmd = true ∧
    (cexState3.delete cexOracle3 0 "1.1.1.1").2.1 =
      .error (Cmd.appendHost "/usr/sbin/iptables" "INPUT" "2.2.2.2" "ACCEPT") := by
  decide

/-! ## C5: idempotent re-add -/

/-- Filtering for a key absent from every entry yields nothing. -/
lemma filter_key_eq_nil (es : List CacheEntry) (k : String)
    (h : ∀ e ∈ es, e.key ≠ k) :
    es.filter (fun e => e.key == k) = [] := by
  induction es with
  | nil => rfl
  | cons a es ih =>
    rw [List.filter_cons]
    have ha : (a.key == k) = false := beq_eq_false_iff_ne.2 (h a (by simp))
    simp only [ha, Bool.false_eq_true, if_false]
    exact ih fun e he => h e (by simp [he])

/-- Overwriting the unique entry with key `k` leaves exactly one entry
with key `k`, carrying the new value and expiry. -/
lemma replace_filter (es : List CacheEntry) (k v : String) (ex : Option Nat)
    (hnd : (es.map CacheEntry.key).Nodup)
    (hmem : ∃ e ∈ es, e.key = k) :
    (es.map fun e =>
        if e.key == k then { key := e.key, value := v, expiresAt := ex } else e).filter
      (fun e => e.key == k) = [{ key := k, value := v, expiresAt := ex }] := by
  induction es with
  | nil =>
    rcases hmem with ⟨e, he, -⟩
    exact absurd he (List.not_mem_nil e)
  | cons a es ih =>
    rw [List.map_cons] at hnd ⊢
    have hnd' := (List.nodup_cons.1 hnd).2
    by_cases hak : a.key = k
    · have hk : (a.key == k) = true := beq_iff_eq.2 hak
      have htail : ∀ e ∈ es, e.key ≠ k := by
        intro e he heq
        exact (List.nodup_cons.1 hnd).1
          (by rw [hak, ← heq]; exact List.mem_map.2 ⟨e, he, rfl⟩)
      have hmapid : es.map (fun e =>
          if e.key == k then { key := e.key, value := v, expiresAt := ex } else e) = es := by
        rw [List.map_congr_left fun e he =>
          if_neg (by simp [htail e he] : ¬((e.key == k) = true))]
        exact List.map_id es
      rw [List.filter_cons]
      simp only [hk, if_true]
      rw [hmapid, filter_key_eq_nil es k htail, hak]
    · have hk : (a.key == k) = false := beq_eq_false_iff_ne.2 hak
      rcases hmem with ⟨e, he, hek⟩
      have hmem' : ∃ e ∈ es, e.key = k := by
        rcases List.mem_cons.1 he with rfl | he'
        · exact absurd hek hak
        · exact ⟨e, he', hek⟩
      rw [List.filter_cons]
      simp only [hk, Bool.false_eq_true, if_false]
      exact ih hnd' hmem'

/-- An `includes` hit implies a key hit. -/
lemma any_key_of_includes (c : MemoryCache) (k : String) (now : Nat)
    (h : c.includes k now = true) :
    c.entries.any (fun e => e.key == k) = true := by
  rw [MemoryCache.includes] at h
  rcases List.any_eq_true.1 h with ⟨e, he, hp⟩
  rcases Bool.and_eq_true_iff.1 hp with ⟨h1, -⟩
  exact List.any_eq_true.2 ⟨e, he, h1⟩

/-- `set` on a store with unique keys leaves exactly one entry for the
key, with the new value and refreshed expiry. -/
lemma set_filter (c : MemoryCache) (k v : String) (now : Nat)
    (hnd : (c.entries.map CacheEntry.key).Nodup)
    (hmem : c.entries.any (fun e => e.key == k) = true) :
    (c.set k v now).entries.filter (fun e => e.key == k) =
      [{ key := k, value := v, expiresAt := c.setExpiry now }] := by
  simp only [MemoryCache.set, setEntries, hmem, if_true]
  apply replace_filter _ _ _ _ hnd
  rcases List.any_eq_true.1 hmem with ⟨e, he, hk⟩
  exact ⟨e, he, eq_of_beq hk⟩

/-- An entry stamped with `setExpiry now` is alive at `now`. -/
lemma alive_setExpiry (c : MemoryCache) (now : Nat) (key value : String) :
    CacheEntry.alive { key := key, value := value, expiresAt := c.setExpiry now } now = true := by
  rw [MemoryCache.setExpiry]
  cases h0 : c.stdTTL == 0 with
  | true => rfl
  | false =>
    have hne : c.stdTTL ≠ 0 := by simpa using h0
    simp [CacheEntry.alive]
    omega

/-- Right after `set`, the key is present (`includes` is true). -/
lemma includes_set (c : MemoryCache) (k v : String) (now : Nat) :
    (c.set k v now).includes k now = true := by
  rw [MemoryCache.set, MemoryCache.includes]
  apply List.any_eq_true.2
  rw [setEntries]
  cases hany : c.entries.any (fun e => e.key == k) with
  | true =>
    rcases List.any_eq_true.1 hany with ⟨e, he, hk⟩
    simp only [if_true]
    refine ⟨_, List.mem_map.2 ⟨e, he, rfl⟩, ?_⟩
    simp only [hk, if_true]
    rw [Bool.and_eq_true_iff]
    exact ⟨rfl, alive_setExpiry c now e.key v⟩
  | false =>
    simp only [Bool.false_eq_true, if_false]
    refine ⟨_, List.mem_append.2 (Or.inr (List.mem_singleton.2 rfl)), ?_⟩
    rw [Bool.and_eq_true_iff]
    exact ⟨beq_self_eq_true k, alive_setExpiry c now k v⟩

/-- C5: when the host is already present, `add(h, t)` issues no external
command and leaves exactly one store entry for `h`, whose value becomes
`t`; and two identical `add(h, t)` calls from a state without `h` issue
exactly one append command in total. -/
theorem add_idempotent (s : IPTables) (o : Oracle) (now : Nat) (h t : String)
    (hnd : (s.hostStorage.entries.map CacheEntry.key).Nodup) :
    (s.hostStorage.includes h now = true →
      (s.add o now h t).2.2 = [] ∧
      (s.add o now h t).1.hostStorage.entries.filter (fun e => e.key == h) =
        [{ key := h, value := t, expiresAt := s.hostStorage.setExpiry now }]) ∧
    (s.hostStorage.includes h now = false →
      o (Cmd.appendHost s.options.iptables s.options.chain h t) = true →
      (s.add o now h t).2.2 ++ ((s.add o now h t).1.add o now h t).2.2 =
        [Cmd.appendHost s.options.iptables s.options.chain h t]) := by
  constructor
  · intro hin
    have ha : s.add o now h t =
        ({ s with hostStorage := s.hostStorage.set h t now }, .ok true, []) := by
      simp [IPTables.add, hin]
    rw [ha]
    exact ⟨rfl, set_filter s.hostStorage h t now hnd (any_key_of_includes _ _ _ hin)⟩
  · intro hout hcmd
    have h1 : s.add o now h t =
        ({ s with hostStorage := s.hostStorage.set h t now }, .ok true,
         [Cmd.appendHost s.options.iptables s.options.chain h t]) := by
      simp [IPTables.add, hout, IPTables._add, hcmd]
    rw [h1]
    have hin2 : ({ s with hostStorage := s.hostStorage.set h t now } :
        IPTables).hostStorage.includes h now = true :=
      includes_set s.hostStorage h t now
    have h2tr : (({ s with hostStorage := s.hostStorage.set h t now } :
        IPTables).add o now h t).2.2 = [] := by
      simp [IPTables.add, hin2]
    rw [h2tr]
    rfl

theorem add_idempotent_witness :
    ((wState.add oracleAll 5 "1.2.3.4" "DROP").2.2 = [] ∧
      (wState.add oracleAll 5 "1.2.3.4" "DROP").1.hostStorage.entries.filter
        (fun e => e.key == "1.2.3.4") =
        [{ key := "1.2.3.4", value := "DROP",
           expiresAt := wState.hostStorage.setExpiry 5 }]) ∧
    ((wState.add oracleAll 5 "7.7.7.7" "DROP").2.2 ++
        ((wState.add oracleAll 5 "7.7.7.7" "DROP").1.add oracleAll 5 "7.7.7.7" "DROP").2.2 =
      [Cmd.appendHost wState.options.iptables wState.options.chain "7.7.7.7" "DROP"]) :=
  ⟨(add_idempotent wState oracleAll 5 "1.2.3.4" "DROP" (by decide)).1 (by decide),
   (add_idempotent wState oracleAll 5 "7.7.7.7" "DROP" (by decide)).2 (by decide) (by decide)⟩

/-! ## C4: keepAlive -/

/-- C4 counterexample: `keepAlive` on a host stored with target `DROP`
does not keep the stored target — `keepAlive` calls `add(host)` with the
default jump target, so the stored value becomes `ACCEPT`. -/
theorem keepAlive_target_cex :
    wState.hostStorage.entries.map (fun e => (e.key, e.value)) = [("1.2.3.4", "DROP")] ∧
    ((wState.keepAlive oracleAll 5 "1.2.3.4").1.hostStorage.entries.map
      fun e => (e.key, e.value)) = [("1.2.3.4", "ACCEPT")] := by
  decide

/-- C4 (amended): for a host already present in the host store,
`keepAlive(h)` issues no external command and refreshes `h`'s TTL, but
replaces the stored target with the default `ACCEPT` rather than reusing
the previously stored target. -/
theorem keepAlive_refreshes (s : IPTables) (o : Oracle) (now : Nat) (h : String)
    (hnd : (s.hostStorage.entries.map CacheEntry.key).Nodup)
    (hin : s.hostStorage.includes h now = true) :
    (s.keepAlive o now h).2.2 = [] ∧
    (s.keepAlive o now h).1.hostStorage.entries.filter (fun e => e.key == h) =
      [{ key := h, value := "ACCEPT", expiresAt := s.hostStorage.setExpiry now }] := by
  have ha : s.add o now h "ACCEPT" =
      ({ s with hostStorage := s.hostStorage.set h "ACCEPT" now }, .ok true, []) := by
    simp [IPTables.add, hin]
  constructor
  · simp [IPTables.keepAlive, ha]
  · simp only [IPTables.keepAlive, ha]
    exact set_filter s.hostStorage h "ACCEPT" now hnd (any_key_of_includes _ _ _ hin)

theorem keepAlive_refreshes_witness :
    (wState.keepAlive oracleAll 5 "1.2.3.4").2.2 = [] ∧
    (wState.keepAlive oracleAll 5 "1.2.3.4").1.hostStorage.entries.filter
      (fun e => e.key == "1.2.3.4") =
      [{ key := "1.2.3.4", value := "ACCEPT",
         expiresAt := wState.hostStorage.setExpiry 5 }] :=
  keepAlive_refreshes wState oracleAll 5 "1.2.3.4" (by decide) (by decide)

/-! ## C2: TTL expiry pipeline -/

/-- An empty controller with the default configuration (TTL 300,
sweep period 30). -/
def c2Base : IPTables :=
  { options := wOptions,
    hostStorage := { stdTTL := 300, checkperiod := 30, entries := [] },
    ifaceStorage := { stdTTL := 0, checkperiod := 0, entries := [] } }

/-- The controller after `add('8.8.8.8', 'DROP')` at time 0. -/
def c2After : IPTables := (c2Base.add oracleAll 0 "8.8.8.8" "DROP").1

/-- C2 evidence: the entry added at time 0 with TTL 300 is present at
time 299 and inaccessible from time 300 on (that part of the claim
holds), and the sweep timer fires at time 300, within one period of the
expiry; the store removes the entry and emits `expired` for the key —
but the controller's expiry handler (`delete`) then finds the key
already gone and issues no commands at all: no flush and no re-append
happen, even though every external command would have succeeded. -/
theorem expiry_no_rebuild_bug :
    c2After.hostStorage.includes "8.8.8.8" 299 = true ∧
    c2After.hostStorage.includes "8.8.8.8" 300 = false ∧
    firstSweepAt c2After.hostStorage.checkperiod 300 = 300 ∧
    (c2After.sweepHostStorage oracleAll 300).2.1 = ["8.8.8.8"] ∧
    (c2After.sweepHostStorage oracleAll 300).2.2 = [] := by
  decide
